import Mathlib

/-!
Shallow embedding of `src/cli_common.rs` (common CLI helpers of the rage
tool): identity loading with a platform default, interactive secret
prompting, and diceware-style passphrase generation.

External effects are modelled explicitly:
- the filesystem, the platform config directory and the identity parser are
  fields of an `Env` record (the parser `Identity::from_buffer` /
  `Identity::from_file` lives in `src/keys.rs`, outside the file under
  verification, and is opaque to this subsystem);
- the interactive terminal is a list of typed lines;
- the random sampler is a function from draw position to drawn index;
- a Rust panic (`expect`) is a distinguished outcome constructor;
- side effects relevant to the claims (config-dir resolution, file opens,
  invocations of the caller-supplied error constructor) are logged in an
  event trace returned alongside the result.
-/

namespace Rage

/-- Opaque decryption key material; `cli_common.rs` never inspects it, it is
produced by the external parser and only collected into sequences. -/
structure Identity where
  raw : String
deriving DecidableEq, Repr

/-- The slice of `std::io::Error` observable by `read_identities`: the code
only distinguishes `ErrorKind::NotFound` from every other kind. -/
inductive IoError where
  | notFound
  | other (code : Nat)
deriving DecidableEq, Repr

/-- Result of `read_identities`, with a constructor for a Rust panic (the
`expect` on the config-dir lookup). -/
inductive Outcome (E : Type) where
  | panic (msg : String)
  | error (e : E)
  | ok (ids : List Identity)
deriving DecidableEq, Repr

/-- Effect trace entries for `read_identities`. -/
inductive Event where
  | queryConfigDir
  | openFile (path : String)
  | callNoDefault (path : String)
deriving DecidableEq, Repr

/-- The environment of `read_identities`: the platform config directory
(`get_config_dir`, absent on unknown platforms), the filesystem (`File::open`
returning file contents or an I/O error), the external identity parser
(`Identity::from_buffer`, returning identities or its own error converted to
`E`), and the `From<io::Error>` conversion into the caller's error type. -/
structure Env (E : Type) where
  configDir : Option String
  openFile : String → Except IoError String
  parse : String → Except E (List Identity)
  intoErr : IoError → E

/-- Modelled from the spec: `Identity::from_file` (defined in
`src/keys.rs`, which is not part of the file under verification) opens the
file at the given path and parses its contents; an open failure converts
into `E` via `From<io::Error>`, a parse failure propagates unchanged. -/
def from_file {E : Type} (env : Env E) (filename : String) : Except E (List Identity) :=
  match env.openFile filename with
  | .error e => .error (env.intoErr e)
  | .ok contents => env.parse contents

/-- The `for filename in filenames` loop of `read_identities`:
`identities.extend(Identity::from_file(filename)?)`. The accumulator models
the growing `identities` vector; `?` aborts with the first error. Each
iteration's file open is logged in the trace. -/
def read_identities_loop {E : Type} (env : Env E) :
    List String → List Identity → Outcome E × List Event
  | [], acc => (.ok acc, [])
  | f :: rest, acc =>
    match from_file env f with
    | .error e => (.error e, [Event.openFile f])
    | .ok ids =>
      let r := read_identities_loop env rest (acc ++ ids)
      (r.1, Event.openFile f :: r.2)

/-- `read_identities(filenames, no_default)` from `src/cli_common.rs`.
Empty `filenames`: resolve the config dir (`expect` panics when it is
absent), push `age/keys.txt`, open it (`NotFound` is routed through the
caller-supplied `no_default`, any other I/O error converts via
`From<io::Error>`), then parse with `Identity::from_buffer`. Non-empty
`filenames`: run the loop over the explicit paths. The second component is
the effect trace. -/
def read_identities {E : Type} (env : Env E) (filenames : List String)
    (no_default : String → E) : Outcome E × List Event :=
  if filenames.isEmpty then
    match env.configDir with
    | none =>
      (.panic ("an OS for which we know the default config directory"), [Event.queryConfigDir])
    | some dir =>
      let default_filename := dir ++ "/age/keys.txt"
      match env.openFile default_filename with
      | .error IoError.notFound =>
        (.error (no_default default_filename),
         [Event.queryConfigDir, Event.openFile default_filename,
          Event.callNoDefault default_filename])
      | .error e =>
        (.error (env.intoErr e), [Event.queryConfigDir, Event.openFile default_filename])
      | .ok contents =>
        match env.parse contents with
        | .error e => (.error e, [Event.queryConfigDir, Event.openFile default_filename])
        | .ok ids => (.ok ids, [Event.queryConfigDir, Event.openFile default_filename])
  else
    read_identities_loop env filenames []

/-- The configuration `read_secret` builds: `dialoguer::PasswordInput` with
a prompt, an optional confirmation prompt paired with the mismatch message,
and the empty-password policy. -/
structure PasswordInput where
  prompt : String
  confirmation : Option (String × String)
  allow_empty_password : Bool

/-- Modelled from the spec: the interactive loop of
`dialoguer::PasswordInput::interact` (an external crate; the spec describes
it in the SecretPrompt contract). The argument list is the stream of lines
the human types; `none` models an I/O failure (input stream closed before
an entry was accepted). Each round reads an entry; an empty entry is
accepted immediately when empty passwords are allowed; without a
confirmation prompt the entry is accepted as-is; with one, a second entry
is read and must match exactly, otherwise the mismatch message is shown and
the loop re-prompts. -/
def PasswordInput.interact (inp : PasswordInput) : List String → Option String
  | [] => none
  | [password] =>
    if inp.allow_empty_password && password.isEmpty then some password
    else
      match inp.confirmation with
      | none => some password
      | some _ => none
  | password :: confirmation_entry :: rest2 =>
    if inp.allow_empty_password && password.isEmpty then some password
    else
      match inp.confirmation with
      | none => some password
      | some _ =>
        if password = confirmation_entry then some password
        else inp.interact rest2

/-- `read_secret(prompt, confirm)` from `src/cli_common.rs`: builds a
`PasswordInput`; when `confirm` is some it adds the confirmation prompt with
message "Inputs do not match" and allows empty passwords; then interacts.
`SecretString` is modelled as the plain underlying string. -/
def read_secret (prompt : String) (confirm : Option String) (inputs : List String) :
    Option String :=
  let inp : PasswordInput :=
    match confirm with
    | some confirm_prompt =>
      { prompt := prompt
        confirmation := some (confirm_prompt, "Inputs do not match")
        allow_empty_password := true }
    | none =>
      { prompt := prompt
        confirmation := none
        allow_empty_password := false }
  inp.interact inputs

/-- `Passphrase` from `src/cli_common.rs`: typed by the user, or generated. -/
inductive Passphrase where
  | Typed (secret : String)
  | Generated (secret : String)
deriving DecidableEq, Repr

/-- Result of `read_or_generate_passphrase`: an I/O failure of the prompt,
a panic of the `expect("index is in range")` word lookup, or a passphrase. -/
inductive PassphraseOutcome where
  | ioFailure
  | panic (msg : String)
  | ok (p : Passphrase)
deriving DecidableEq, Repr

/-- The word-joining fold of `read_or_generate_passphrase`:
`fold(String::new(), |acc, s| if acc.is_empty() { acc + s } else { acc + "-" + s })`. -/
def joinWords (words : List String) : String :=
  words.foldl (fun acc s => if acc.isEmpty then acc ++ s else acc ++ "-" ++ s) ""

/-- Modelled from the spec: the bundled word resource
`assets/bip39-english.txt` is not part of the file under verification; the
spec states it parses to exactly 2048 unique, non-empty lowercase words.
This concrete representative satisfies exactly that invariant (entry `i` is
the lowercase letter a repeated `i + 1` times). -/
def BIP39_WORDLIST : List String :=
  (List.range 2048).map (fun i => String.mk (List.replicate (i + 1) 'a'))

/-- `read_or_generate_passphrase()` from `src/cli_common.rs`,
parameterised by the parsed embedded word list (`BIP39_WORDLIST.lines()`)
and by the sampler stream `rng` (`rng n` is the index the `Uniform`
distribution yields on the `n`-th call of `between.sample(&mut rng)`).
It prompts with confirmation; a non-empty secret is returned as `Typed`
unchanged; an empty secret triggers generation: 10 draws, each looked up
with `.nth(i)` whose `expect` panics when the index is out of range, then
joined by the fold. -/
def read_or_generate_passphrase (wordlist : List String) (rng : Nat → Nat)
    (inputs : List String) : PassphraseOutcome :=
  match read_secret ("Type passphrase (leave empty to autogenerate a secure one)")
      (some ("Confirm passphrase")) inputs with
  | none => .ioFailure
  | some res =>
    if res.isEmpty then
      match ((List.range 10).map rng).mapM (fun i => wordlist.get? i) with
      | none => .panic ("index is in range")
      | some words => .ok (.Generated (joinWords words))
    else .ok (.Typed res)

/-- Spec-side description of the joined shape: words separated by single
hyphens, none leading, none trailing. Used to state what a generated
passphrase looks like. -/
def sepJoin : List String → String
  | [] => ""
  | [w] => w
  | w :: rest => w ++ "-" ++ sepJoin rest

/-- A concrete parser for closed instances: two known file contents parse
to fixed identity lists, anything else is a parse error. -/
def wParse : String → Except String (List Identity) := fun c =>
  if c = "ca" then .ok [{ raw := "i1" }, { raw := "i2" }]
  else if c = "cb" then .ok [{ raw := "i3" }]
  else .error ("parse failure")

/-- A concrete environment for closed instances: files `A` and `B` exist,
everything else is missing; the config dir resolves to `/cfg`. -/
def wEnv : Env String :=
  { configDir := some ("/cfg")
    openFile := fun p =>
      if p = "A" then .ok ("ca")
      else if p = "B" then .ok ("cb")
      else .error IoError.notFound
    parse := wParse
    intoErr := fun _ => "io failure" }

/-- `wEnv` on a platform with no known config-dir convention. -/
def wEnvNoDir : Env String :=
  { wEnv with configDir := none }

/-- A concrete caller-supplied error constructor for closed instances. -/
def wNoDefault : String → String := fun p => "no identity at " ++ p

theorem isEmpty_empty_eq_true : ("" : String).isEmpty = true := rfl

theorem isEmpty_false_of_ne (s : String) (h : s ≠ "") : s.isEmpty = false := by
  cases hi : s.isEmpty
  · rfl
  · exact absurd ((String.isEmpty_iff s).mp hi) h

theorem append_hyphen_ne_empty (a w : String) : a ++ "-" ++ w ≠ "" := by
  intro h
  have hd := congrArg String.data h
  simp [String.data_append] at hd

theorem sepJoin_shift (a w : String) (rest : List String) :
    sepJoin ((a ++ "-" ++ w) :: rest) = a ++ "-" ++ sepJoin (w :: rest) := by
  cases rest with
  | nil => rfl
  | cons x r =>
    apply String.ext
    simp [sepJoin, String.data_append, List.append_assoc]

theorem foldl_join_acc (ws : List String) :
    ∀ acc : String, acc ≠ "" →
      List.foldl (fun acc s => if acc.isEmpty then acc ++ s else acc ++ "-" ++ s) acc ws =
        sepJoin (acc :: ws) := by
  induction ws with
  | nil => intro acc _; rfl
  | cons w rest ih =>
    intro acc hacc
    rw [List.foldl_cons]
    have hstep : (if acc.isEmpty then acc ++ w else acc ++ "-" ++ w) = acc ++ "-" ++ w := by
      rw [isEmpty_false_of_ne acc hacc]
      rfl
    rw [hstep, ih (acc ++ "-" ++ w) (append_hyphen_ne_empty acc w), sepJoin_shift]
    rfl

theorem joinWords_eq_sepJoin (ws : List String) (h : ∀ w ∈ ws, w ≠ "") :
    joinWords ws = sepJoin ws := by
  cases ws with
  | nil => rfl
  | cons w rest =>
    unfold joinWords
    rw [List.foldl_cons]
    have hw : w ≠ "" := h w (List.mem_cons_self w rest)
    have hstep : (if ("" : String).isEmpty then "" ++ w else "" ++ "-" ++ w) = "" ++ w := rfl
    have hnil : ("" : String) ++ w = w := by
      apply String.ext
      simp [String.data_append]
    rw [hstep, hnil]
    exact foldl_join_acc rest w hw

theorem count_hyphen_sepJoin :
    ∀ (ws : List String) (w : String), ( '-' ∉ w.data) → (∀ x ∈ ws, '-' ∉ x.data) →
      (sepJoin (w :: ws)).data.count '-' = ws.length := by
  intro ws
  induction ws with
  | nil =>
    intro w hw _
    exact List.count_eq_zero.mpr hw
  | cons x r ih =>
    intro w hw hws
    have hx : '-' ∉ x.data := hws x (List.mem_cons_self x r)
    have hr : ∀ y ∈ r, '-' ∉ y.data := fun y hy => hws y (List.mem_cons_of_mem x hy)
    have : sepJoin (w :: x :: r) = w ++ "-" ++ sepJoin (x :: r) := rfl
    rw [this]
    rw [String.data_append, String.data_append, List.count_append, List.count_append]
    rw [List.count_eq_zero.mpr hw, ih x hx hr]
    have hone : List.count '-' ("-" : String).data = 1 := rfl
    rw [hone, List.length_cons]
    omega

theorem get?_eq_some_getD (wl : List String) (i : Nat) (h : i < wl.length) :
    wl.get? i = some (wl.getD i ("")) := by
  rw [List.getD_eq_getElem?_getD, List.get?_eq_getElem?, List.getElem?_eq_getElem h]
  rfl

theorem getD_mem (wl : List String) (i : Nat) (h : i < wl.length) :
    wl.getD i ("") ∈ wl := by
  rw [List.getD_eq_getElem?_getD, List.getElem?_eq_getElem h]
  exact List.getElem_mem h

theorem mapM_get?_of_lt (wl : List String) :
    ∀ ds : List Nat, (∀ d ∈ ds, d < wl.length) →
      ds.mapM (fun i => wl.get? i) = some (ds.map (fun i => wl.getD i (""))) := by
  intro ds
  induction ds with
  | nil => intro _; rfl
  | cons d rest ih =>
    intro h
    have hd : d < wl.length := h d (List.mem_cons_self d rest)
    have hrest : ∀ x ∈ rest, x < wl.length := fun x hx => h x (List.mem_cons_of_mem d hx)
    rw [List.mapM_cons, get?_eq_some_getD wl d hd, ih hrest]
    rfl

theorem loop_first_error {E : Type} (env : Env E) (e : E) :
    ∀ (pre : List String) (f : String) (post : List String) (acc : List Identity),
      (∀ p ∈ pre, ∃ ids, from_file env p = .ok ids) →
      from_file env f = .error e →
      read_identities_loop env (pre ++ f :: post) acc =
        (.error e, pre.map Event.openFile ++ [Event.openFile f]) := by
  intro pre
  induction pre with
  | nil =>
    intro f post acc _ hf
    simp [read_identities_loop, hf]
  | cons p pre2 ih =>
    intro f post acc hpre hf
    obtain ⟨ids, hp⟩ := hpre p (List.mem_cons_self p pre2)
    have hrest : ∀ q ∈ pre2, ∃ ids2, from_file env q = .ok ids2 :=
      fun q hq => hpre q (List.mem_cons_of_mem p hq)
    simp only [List.cons_append, read_identities_loop, hp]
    simp only [List.append_eq]
    rw [ih f post (acc ++ ids) hrest hf]
    simp

theorem loop_trace_openFile {E : Type} (env : Env E) :
    ∀ (fs : List String) (acc : List Identity) (ev : Event),
      ev ∈ (read_identities_loop env fs acc).2 → ∃ p ∈ fs, ev = Event.openFile p := by
  intro fs
  induction fs with
  | nil =>
    intro acc ev hev
    simp [read_identities_loop] at hev
  | cons f rest ih =>
    intro acc ev hev
    cases hf : from_file env f with
    | error e =>
      simp only [read_identities_loop, hf] at hev
      simp at hev
      exact ⟨f, List.mem_cons_self f rest, hev⟩
    | ok ids =>
      simp only [read_identities_loop, hf] at hev
      simp at hev
      cases hev with
      | inl h => exact ⟨f, List.mem_cons_self f rest, h⟩
      | inr h =>
        obtain ⟨p, hp, hpe⟩ := ih (acc ++ ids) ev h
        exact ⟨p, List.mem_cons_of_mem f hp, hpe⟩

theorem loop_configDir_frame {E : Type} (env : Env E) (c : Option String) :
    ∀ (fs : List String) (acc : List Identity),
      read_identities_loop { env with configDir := c } fs acc =
        read_identities_loop env fs acc := by
  intro fs
  induction fs with
  | nil => intro acc; rfl
  | cons f rest ih =>
    intro acc
    have hff : from_file { env with configDir := c } f = from_file env f := rfl
    cases hf : from_file env f with
    | error e => simp only [read_identities_loop, hff, hf]
    | ok ids => simp only [read_identities_loop, hff, hf, ih (acc ++ ids)]

/-- C3: for explicit paths `[A, B]` whose files all open and parse
successfully, `read_identities [A, B]` is the concatenation of
`read_identities [A]` and `read_identities [B]`: identities in path order,
duplicates retained. -/
theorem C3_explicit_paths_concat {E : Type} (env : Env E) (nd : String → E)
    (a b : String) (idsA idsB : List Identity)
    (ha : (read_identities env [a] nd).1 = .ok idsA)
    (hb : (read_identities env [b] nd).1 = .ok idsB) :
    (read_identities env [a, b] nd).1 = .ok (idsA ++ idsB) := by
  simp only [read_identities, List.isEmpty_cons, Bool.false_eq_true, if_false] at ha hb ⊢
  cases hfa : from_file env a with
  | error e =>
    simp only [read_identities_loop, hfa] at ha
    exact Outcome.noConfusion ha
  | ok iA =>
    cases hfb : from_file env b with
    | error e =>
      simp only [read_identities_loop, hfb] at hb
      exact Outcome.noConfusion hb
    | ok iB =>
      simp only [read_identities_loop, hfa, hfb] at ha hb ⊢
      simp at ha hb
      simp [ha, hb]

theorem C3_explicit_paths_concat_witness :
    (read_identities wEnv ([ "A", "B"]) wNoDefault).1 =
      .ok ([{ raw := "i1" }, { raw := "i2" }] ++ [{ raw := "i3" }]) :=
  C3_explicit_paths_concat wEnv wNoDefault ("A") ("B")
    ([{ raw := "i1" }, { raw := "i2" }]) ([{ raw := "i3" }]) rfl rfl

/-- C4: with explicit paths, the first open or parse failure aborts the
whole call with that error: the result is exactly that error, no identity
sequence is produced, and no path after the failing one is opened (the
trace stops at the failing path). -/
theorem C4_first_failure_aborts {E : Type} (env : Env E) (nd : String → E)
    (pre post : List String) (f : String) (e : E)
    (hpre : ∀ p ∈ pre, ∃ ids, from_file env p = .ok ids)
    (hf : from_file env f = .error e) :
    read_identities env (pre ++ f :: post) nd =
      (.error e, pre.map Event.openFile ++ [Event.openFile f]) := by
  have hne : (pre ++ f :: post).isEmpty = false := by cases pre <;> rfl
  simp only [read_identities, hne, Bool.false_eq_true, if_false]
  exact loop_first_error env e pre f post [] hpre hf

theorem C4_first_failure_aborts_witness :
    read_identities wEnv ([ "A", "X", "B"]) wNoDefault =
      (.error ("io failure"), [Event.openFile ("A"), Event.openFile ("X")]) :=
  C4_first_failure_aborts wEnv wNoDefault ([ "A"]) ([ "B"]) ("X") ("io failure")
    (by
      intro p hp
      simp at hp
      subst hp
      exact ⟨[{ raw := "i1" }, { raw := "i2" }], rfl⟩)
    rfl

/-- C5: with no explicit paths and a resolvable config dir, a NotFound on
the default file `<dir>/age/keys.txt` invokes the caller-supplied
constructor exactly once with the computed default path and returns its
error (no panic); any other I/O error on the default file propagates
through `From` unchanged, with the constructor never invoked. -/
theorem C5_default_missing {E : Type} (env : Env E) (nd : String → E) (dir : String)
    (hc : env.configDir = some dir) :
    (env.openFile (dir ++ "/age/keys.txt") = .error IoError.notFound →
      read_identities env [] nd =
        (.error (nd (dir ++ "/age/keys.txt")),
         [Event.queryConfigDir, Event.openFile (dir ++ "/age/keys.txt"),
          Event.callNoDefault (dir ++ "/age/keys.txt")])) ∧
    (∀ e, env.openFile (dir ++ "/age/keys.txt") = .error e → e ≠ IoError.notFound →
      (read_identities env [] nd).1 = .error (env.intoErr e) ∧
      (∀ p, Event.callNoDefault p ∉ (read_identities env [] nd).2)) := by
  constructor
  · intro hopen
    simp [read_identities, hc, hopen]
  · intro e hopen hne
    cases e with
    | notFound => exact absurd rfl hne
    | other code =>
      constructor
      · simp [read_identities, hc, hopen]
      · intro p
        simp [read_identities, hc, hopen]

theorem C5_default_missing_witness :
    read_identities wEnv [] wNoDefault =
      (.error (wNoDefault ("/cfg" ++ "/age/keys.txt")),
       [Event.queryConfigDir, Event.openFile ("/cfg" ++ "/age/keys.txt"),
        Event.callNoDefault ("/cfg" ++ "/age/keys.txt")]) :=
  (C5_default_missing wEnv wNoDefault ("/cfg") rfl).1 rfl

/-- C6: with no explicit paths on a platform whose config dir cannot be
resolved, the call is fatal (it panics at the `expect`): it produces
neither an identity sequence nor an error value, opens no file, and never
invokes the missing-default constructor — distinct from the missing-file
case. -/
theorem C6_no_config_dir {E : Type} (env : Env E) (nd : String → E)
    (hc : env.configDir = none) :
    read_identities env [] nd =
      (.panic ("an OS for which we know the default config directory"),
       [Event.queryConfigDir]) ∧
    (∀ ids, (read_identities env [] nd).1 ≠ .ok ids) ∧
    (∀ e, (read_identities env [] nd).1 ≠ .error e) ∧
    (∀ p, Event.openFile p ∉ (read_identities env [] nd).2) ∧
    (∀ p, Event.callNoDefault p ∉ (read_identities env [] nd).2) := by
  have hmain : read_identities env [] nd =
      (.panic ("an OS for which we know the default config directory"),
       [Event.queryConfigDir]) := by
    simp [read_identities, hc]
  refine ⟨hmain, ?_, ?_, ?_, ?_⟩ <;> rw [hmain] <;> simp

theorem C6_no_config_dir_witness :
    read_identities wEnvNoDir [] wNoDefault =
      (.panic ("an OS for which we know the default config directory"),
       [Event.queryConfigDir]) :=
  (C6_no_config_dir wEnvNoDir wNoDefault rfl).1

/-- C10: with a non-empty explicit path list, `read_identities` never
queries the platform config directory, opens only the listed files, and its
result does not depend on the config dir or on the missing-default
constructor. -/
theorem C10_explicit_frame {E : Type} (env : Env E) (nd nd2 : String → E)
    (c : Option String) (fs : List String) (h : fs ≠ []) :
    Event.queryConfigDir ∉ (read_identities env fs nd).2 ∧
    (∀ p, Event.openFile p ∈ (read_identities env fs nd).2 → p ∈ fs) ∧
    read_identities { env with configDir := c } fs nd2 = read_identities env fs nd := by
  cases fs with
  | nil => exact absurd rfl h
  | cons f rest =>
    have hne : (f :: rest).isEmpty = false := rfl
    simp only [read_identities, hne, Bool.false_eq_true, if_false]
    refine ⟨?_, ?_, ?_⟩
    · intro hmem
      obtain ⟨p, _, hp⟩ := loop_trace_openFile env (f :: rest) [] Event.queryConfigDir hmem
      exact Event.noConfusion hp
    · intro p hp
      obtain ⟨q, hq, hqe⟩ := loop_trace_openFile env (f :: rest) [] (Event.openFile p) hp
      cases hqe
      exact hq
    · exact loop_configDir_frame env c (f :: rest) []

theorem C10_explicit_frame_witness :
    read_identities wEnvNoDir ([ "A"]) wNoDefault =
      read_identities wEnv ([ "A"]) wNoDefault :=
  (C10_explicit_frame wEnv wNoDefault wNoDefault none ([ "A"]) (by decide)).2.2

/-- C1: whenever the prompt yields a secret, a non-empty secret is returned
as `Typed` with its content unchanged, and an empty secret yields a
`Generated` passphrase — the provenance tag exactly reflects whether the
value was typed or synthesized. -/
theorem C1_provenance (wl : List String) (rng : Nat → Nat) (inputs : List String) (s : String)
    (hs : read_secret ("Type passphrase (leave empty to autogenerate a secure one)")
        (some ("Confirm passphrase")) inputs = some s)
    (hr : ∀ i, rng i < wl.length) :
    (s ≠ "" → read_or_generate_passphrase wl rng inputs = .ok (.Typed s)) ∧
    (s = "" → ∃ g, read_or_generate_passphrase wl rng inputs = .ok (.Generated g)) := by
  constructor
  · intro hne
    have hred : read_or_generate_passphrase wl rng inputs = .ok (.Typed s) := by
      simp only [read_or_generate_passphrase, hs]
      rw [isEmpty_false_of_ne s hne]
      rfl
    exact hred
  · intro he
    subst he
    have hred : read_or_generate_passphrase wl rng inputs =
        (match ((List.range 10).map rng).mapM (fun i => wl.get? i) with
         | none => PassphraseOutcome.panic ("index is in range")
         | some words => .ok (.Generated (joinWords words))) := by
      simp only [read_or_generate_passphrase, hs]
      rfl
    rw [hred, mapM_get?_of_lt wl ((List.range 10).map rng) (by
      intro d hd
      rw [List.mem_map] at hd
      obtain ⟨i, _, hi⟩ := hd
      subst hi
      exact hr i)]
    exact ⟨joinWords (((List.range 10).map rng).map (fun i => wl.getD i (""))), rfl⟩

theorem C1_provenance_witness :
    read_or_generate_passphrase ([ "a"]) (fun _ => 0) ([ "x", "x"]) = .ok (.Typed ("x")) :=
  (C1_provenance ([ "a"]) (fun _ => 0) ([ "x", "x"]) ("x") rfl (fun _ => Nat.zero_lt_one)).1
    (by decide)

/-- C2: a generated passphrase is built from exactly 10 drawn indices, each
mapped to the word-list entry at that index in draw order, joined with
single hyphen separators with none leading and none trailing; with every
word-list entry non-empty (and, as for the embedded lowercase word list,
hyphen-free), the string consists of 10 words, each verbatim from the word
list, with exactly 9 hyphens. -/
theorem C2_generated_ten_words (wl : List String) (rng : Nat → Nat) (inputs : List String)
    (hs : read_secret ("Type passphrase (leave empty to autogenerate a secure one)")
        (some ("Confirm passphrase")) inputs = some (""))
    (hr : ∀ i, rng i < wl.length)
    (hne : ∀ w ∈ wl, w ≠ "")
    (hhy : ∀ w ∈ wl, '-' ∉ w.data) :
    read_or_generate_passphrase wl rng inputs =
      .ok (.Generated (sepJoin (((List.range 10).map rng).map (fun i => wl.getD i (""))))) ∧
    (((List.range 10).map rng).map (fun i => wl.getD i (""))).length = 10 ∧
    (∀ w ∈ ((List.range 10).map rng).map (fun i => wl.getD i ("")), w ∈ wl) ∧
    (sepJoin (((List.range 10).map rng).map (fun i => wl.getD i ("")))).data.count '-' = 9 := by
  have hwords : ∀ w ∈ ((List.range 10).map rng).map (fun i => wl.getD i ("")), w ∈ wl := by
    intro w hw
    rw [List.mem_map] at hw
    obtain ⟨d, hd, hdw⟩ := hw
    rw [List.mem_map] at hd
    obtain ⟨i, _, hi⟩ := hd
    subst hi
    subst hdw
    exact getD_mem wl (rng i) (hr i)
  have hlen : (((List.range 10).map rng).map (fun i => wl.getD i (""))).length = 10 := by
    simp
  refine ⟨?_, hlen, hwords, ?_⟩
  · have hred : read_or_generate_passphrase wl rng inputs =
        (match ((List.range 10).map rng).mapM (fun i => wl.get? i) with
         | none => PassphraseOutcome.panic ("index is in range")
         | some words => .ok (.Generated (joinWords words))) := by
      simp only [read_or_generate_passphrase, hs]
      rfl
    rw [hred, mapM_get?_of_lt wl ((List.range 10).map rng) (by
      intro d hd
      rw [List.mem_map] at hd
      obtain ⟨i, _, hi⟩ := hd
      subst hi
      exact hr i)]
    exact congrArg (fun x => PassphraseOutcome.ok (Passphrase.Generated x))
      (joinWords_eq_sepJoin _ (fun w hw => hne w (hwords w hw)))
  · cases hws : ((List.range 10).map rng).map (fun i => wl.getD i ("")) with
    | nil =>
      rw [hws] at hlen
      simp at hlen
    | cons w rest =>
      have hmem : ∀ x ∈ w :: rest, x ∈ wl := by
        rw [← hws]
        exact hwords
      have hw : '-' ∉ w.data := hhy w (hmem w (List.mem_cons_self w rest))
      have hrest : ∀ x ∈ rest, '-' ∉ x.data :=
        fun x hx => hhy x (hmem x (List.mem_cons_of_mem w hx))
      rw [count_hyphen_sepJoin rest w hw hrest]
      rw [hws] at hlen
      simp at hlen
      omega

theorem C2_generated_ten_words_witness :
    read_or_generate_passphrase ([ "a", "b"]) (fun _ => 1) ([ ""]) =
      .ok (.Generated (sepJoin (((List.range 10).map (fun _ => 1)).map
        (fun i => List.getD ([ "a", "b"]) i (""))))) :=
  (C2_generated_ten_words ([ "a", "b"]) (fun _ => 1) ([ ""]) rfl (fun _ => Nat.one_lt_two)
    (by decide) (by decide)).1

/-- C8: the modelled embedded word list has exactly 2048 entries, all
non-empty and pairwise distinct. -/
theorem C8_wordlist_invariant :
    BIP39_WORDLIST.length = 2048 ∧ (∀ w ∈ BIP39_WORDLIST, w ≠ "") ∧ BIP39_WORDLIST.Nodup := by
  refine ⟨by simp [BIP39_WORDLIST], ?_, ?_⟩
  · intro w hw
    simp only [BIP39_WORDLIST, List.mem_map] at hw
    obtain ⟨i, _, hi⟩ := hw
    subst hi
    intro hcon
    have hd : List.replicate (i + 1) 'a' = ([] : List Char) := congrArg String.data hcon
    simp [List.replicate_succ] at hd
  · apply List.Nodup.map
    · intro i j hij
      have hd : List.replicate (i + 1) 'a' = List.replicate (j + 1) 'a' :=
        congrArg String.data hij
      have hl := congrArg List.length hd
      simp [List.length_replicate] at hl
      omega
    · exact List.nodup_range 2048

/-- C8 counterexample to the checked-at-load-time part: the code performs
no validation of the word list when it is loaded; a deviant 2-entry list
flows through passphrase generation without any error, and an out-of-range
index only manifests at generation time as the per-lookup `expect` panic —
a runtime condition, not a load-time check. -/
theorem C8_no_load_time_check :
    read_or_generate_passphrase ([ "a", "b"]) (fun _ => 0) ([ ""]) =
      .ok (.Generated ("a-a-a-a-a-a-a-a-a-a")) ∧
    read_or_generate_passphrase ([ "a", "b"]) (fun _ => 5) ([ ""]) =
      .panic ("index is in range") :=
  ⟨rfl, rfl⟩

/-- C9: with a confirmation prompt, an empty first entry is accepted
immediately regardless of confirmation; two matching non-empty entries are
accepted; two mismatching non-empty entries silently re-issue the prompt on
the remaining input; and the call fails (with an I/O error) exactly when
the input stream is exhausted. -/
theorem C9_confirm_retry (prompt cp a b : String) (rest : List String)
    (ha : a ≠ "") (hab : a ≠ b) :
    read_secret prompt (some cp) ("" :: rest) = some ("") ∧
    read_secret prompt (some cp) (a :: b :: rest) = read_secret prompt (some cp) rest ∧
    read_secret prompt (some cp) (a :: a :: rest) = some a ∧
    read_secret prompt (some cp) [] = none := by
  refine ⟨?_, ?_, ?_, by rfl⟩
  · cases rest with
    | nil => simp [read_secret, PasswordInput.interact, isEmpty_empty_eq_true]
    | cons x r => simp [read_secret, PasswordInput.interact, isEmpty_empty_eq_true]
  · simp only [read_secret, PasswordInput.interact]
    rw [isEmpty_false_of_ne a ha]
    simp [hab]
  · simp only [read_secret, PasswordInput.interact]
    rw [isEmpty_false_of_ne a ha]
    simp

theorem C9_confirm_retry_witness :
    read_secret ("p") (some ("c")) ([ "x", "y", "x", "x"]) =
      read_secret ("p") (some ("c")) ([ "x", "x"]) :=
  (C9_confirm_retry ("p") ("c") ("x") ("y") ([ "x", "x"]) (by decide) (by decide)).2.1

end Rage
